import Mathlib

/-!
Verification of the QA Platform Python SDK (`qa_platform_sdk.py`) against its
specification.  The definitions below are a shallow embedding of the SDK's
request-execution core (`QAPlatformAPI.request`), its authentication state
handling (`_update_auth_headers`, `login`), the query-filter cleaning in
`get_files`, the pagination helper (`paginate`), and the webhook signature
verifier (`validate_webhook_signature`, including an executable HMAC-SHA256
translated from the semantics of Python's `hashlib` / `hmac` standard library
calls the source makes).  Machine integers are modelled as `Nat` with explicit
reduction modulo `2 ^ 32` where the algorithm requires 32-bit wrap-around.
-/

/-! ## Python `int(str)` parsing

`request` evaluates `int(response.headers.get('retry-after', 60))`.  When the
header is present, Python parses the string: surrounding whitespace is
stripped, an optional sign is allowed, then a nonempty digit sequence in which
single underscores may separate digits.  Any other input raises `ValueError`,
modelled here by `none`. -/

def pySpace (c : Char) : Bool :=
  c = ' ' ∨ c = '\t' ∨ c = '\n' ∨ c = '\r' ∨ c = '\x0b' ∨ c = '\x0c'

def pyStrip (cs : List Char) : List Char :=
  ((cs.dropWhile pySpace).reverse.dropWhile pySpace).reverse

def pyDigitsTail : List Char → Nat → Option Nat
  | [], acc => some acc
  | c :: rest, acc =>
    if c.isDigit then pyDigitsTail rest (acc * 10 + (c.toNat - 48))
    else if c = '_' then
      match rest with
      | d :: rest2 =>
        if d.isDigit then pyDigitsTail rest2 (acc * 10 + (d.toNat - 48)) else none
      | [] => none
    else none

def pyDigits : List Char → Option Nat
  | [] => none
  | c :: rest => if c.isDigit then pyDigitsTail rest (c.toNat - 48) else none

def pyInt (s : String) : Option Int :=
  match pyStrip s.data with
  | [] => none
  | c :: rest =>
    if c = '+' then (pyDigits rest).map Int.ofNat
    else if c = '-' then (pyDigits rest).map (fun n => -(n : Int))
    else (pyDigits (c :: rest)).map Int.ofNat

/-! ## The request loop

`QAPlatformAPI.request` (source lines 124-234) loops
`for attempt in range(1, self.retry_attempts + 1)`, dispatches the HTTP
request, and classifies the response.  We model executions in which every
dispatch returns an HTTP response (the `requests.exceptions.RequestException`
branch for transport failures is not exercised by any claim).  The response
body is modelled by `Option JsonBody`: `none` stands for a body on which
`response.json()` raises `ValueError`, and `JsonBody` records the fields the
SDK reads (`error.message`, `error.code`, `error.details`).  Sleeps performed
via `time.sleep` are accumulated in a list of rationals (`retry_delay` is a
Python float multiplied by exact powers of two, represented exactly by `ℚ`). -/

structure ErrorInfo where
  message : Option String
  code : Option String
  details : Option (List String)
deriving DecidableEq, Repr

structure JsonBody where
  error : Option ErrorInfo
deriving DecidableEq, Repr

structure HttpResp where
  status_code : Nat
  retryAfter : Option String
  body : Option JsonBody
  text : String
deriving DecidableEq, Repr

/-- Outcome of `request`: either the parsed JSON body, or the Python exception
the SDK raises.  `qaError` is `QAPlatformError(message, status_code,
error_code, details)`; `rateLimited` is `RateLimitError`; `authError` is
`AuthenticationError`; `uncaughtValueError` models the `ValueError` escaping
from `int()` on an unparsable `retry-after` header (it is caught nowhere in
`request`). -/
inductive ReqOutcome where
  | success (body : JsonBody)
  | qaError (message : String) (status : Option Nat) (code : Option String)
      (details : List String)
  | rateLimited (message : String) (retryAfter : Int)
  | authError (message : String)
  | uncaughtValueError
deriving DecidableEq, Repr

/-- `int(response.headers.get('retry-after', 60))`: missing header gives the
integer default 60; a present header string is parsed by Python `int`. -/
def retryAfterOf (r : HttpResp) : Option Int :=
  match r.retryAfter with
  | none => some 60
  | some s => pyInt s

/-- Message extraction of the 401 branch:
`error_data.get('error', {}).get('message', 'Authentication failed')`,
with the default also used when `response.json()` raises. -/
def authMessage (body : Option JsonBody) : String :=
  match body with
  | none => "Authentication failed"
  | some j => ((j.error.getD ⟨none, none, none⟩).message).getD "Authentication failed"

/-- `response.ok` from the `requests` library: falsy exactly for status codes
400-599 (`raise_for_status` raises for client and server errors). -/
def respOk (r : HttpResp) : Bool :=
  decide (¬ (400 ≤ r.status_code ∧ r.status_code < 600))

/-- The body of `for attempt in range(1, self.retry_attempts + 1)` together
with the final `raise QAPlatformError("Max retries exceeded")` after the loop.
The first argument list holds the attempt numbers still to be iterated
(`range(1, N + 1)` is the list `[1, ..., N]`), and `sleeps` accumulates the
arguments of the `time.sleep` calls performed so far.  Each guard is
translated verbatim from the source, including the
`attempt <= self.retry_attempts` tests inside the loop. -/
def requestLoop (N : Nat) (D : ℚ) (resp : Nat → HttpResp) :
    List Nat → List ℚ → List ℚ × ReqOutcome
  | [], sleeps => (sleeps, .qaError "Max retries exceeded" none none [])
  | attempt :: rest, sleeps =>
    let r := resp attempt
    if r.status_code = 429 then
      match retryAfterOf r with
      | none => (sleeps, .uncaughtValueError)
      | some ra =>
        if attempt ≤ N then
          requestLoop N D resp rest (sleeps ++ [(ra : ℚ)])
        else
          (sleeps, .rateLimited "Rate limit exceeded and max retries reached" ra)
    else if 500 ≤ r.status_code ∧ attempt ≤ N then
      requestLoop N D resp rest (sleeps ++ [D * 2 ^ (attempt - 1)])
    else if r.status_code = 401 then
      (sleeps, .authError (authMessage r.body))
    else if !respOk r then
      match r.body with
      | some j =>
        let e := j.error.getD ⟨none, none, none⟩
        (sleeps, .qaError (e.message.getD "Unknown error") (some r.status_code)
          e.code (e.details.getD []))
      | none =>
        (sleeps, .qaError (if r.text = "" then "Unknown error" else r.text)
          (some r.status_code) none [])
    else
      match r.body with
      | some j => (sleeps, .success j)
      | none =>
        (sleeps, .qaError "Network error: response body is not valid JSON" none none [])

/-- `request` with `retry_attempts = N` and `retry_delay = D`, fed the HTTP
response returned for each attempt number.  Returns the sleeps performed and
the outcome. -/
def request (N : Nat) (D : ℚ) (resp : Nat → HttpResp) : List ℚ × ReqOutcome :=
  requestLoop N D resp (List.range' 1 N) []

/-! ## Authentication state

`QAPlatformAPI.__init__` stores `api_key` and `jwt_token` and calls
`_update_auth_headers`, which clears the session headers, installs the three
base headers, and then sets `Authorization: Bearer <token>` when a JWT token
is set, else `X-API-Key: <key>` when an API key is set.  `login` stores the
token from a response containing `'token'`, clears the API key and refreshes
the headers.  Session headers are modelled as an association list in insertion
order; `session.request` attaches exactly these headers to every subsequent
call. -/

structure Client where
  api_key : Option String
  jwt_token : Option String
  headers : List (String × String)
deriving DecidableEq, Repr

def baseHeaders : List (String × String) :=
  [("User-Agent", "QA-Platform-Python-SDK/1.1.0"),
   ("Accept", "application/json"),
   ("Content-Type", "application/json")]

/-- `_update_auth_headers` (source lines 110-122). -/
def update_auth_headers (c : Client) : Client :=
  { c with
    headers := baseHeaders ++
      (match c.jwt_token with
       | some t => [("Authorization", "Bearer " ++ t)]
       | none =>
         match c.api_key with
         | some k => [("X-API-Key", k)]
         | none => []) }

/-- The login response as far as `login` inspects it: the optional `'token'`
entry of the parsed JSON dictionary. -/
structure LoginResp where
  token : Option String
deriving DecidableEq, Repr

/-- The credential-updating tail of `login` (source lines 271-277): when the
response contains a token it is stored, the API key is cleared and the
session headers are rebuilt; otherwise the client is unchanged. -/
def login (c : Client) (response : LoginResp) : Client :=
  match response.token with
  | some t => update_auth_headers { c with jwt_token := some t, api_key := none }
  | none => c

/-! ## Query-parameter cleaning and encoding

`get_files` (source lines 308-320) strips entries whose value is `None`
(`clean_filters = {k: v for k, v in filters.items() if v is not None}`) and
passes the rest as `params`.  `request` forwards `params` unchanged to
`requests`, whose URL encoder skips `None`-valued entries and renders every
remaining entry, an empty-string value included, as `key=value` in the query
string.  Parameter values are modelled as `Option String` with `none` for
Python `None`. -/

def clean_filters (filters : List (String × Option String)) :
    List (String × Option String) :=
  filters.filter (fun kv => kv.2 ≠ none)

/-- The key-value pairs that appear in the encoded query string, following the
`requests` library's documented encoding of a `params` mapping: `None` values
are skipped, all other entries are rendered. -/
def wireParams (ps : List (String × Option String)) : List (String × String) :=
  ps.filterMap (fun kv => kv.2.map (fun v => (kv.1, v)))

/-! ## Pagination

`paginate` (source lines 399-429) repeatedly calls `request` with `limit` and
an `offset` growing by `limit`, extends the accumulator with each page's
`data`, and breaks when `data` is missing or empty, when the page is short, or
when `response.get('pagination', {}).get('total', 0) <= offset + limit`.  A
page response is modelled by the two fields the helper reads.  The `while
True` loop is given explicit fuel; the loop's own break conditions are
translated verbatim, and the returned `Nat` counts the page fetches
performed. -/

structure Pagination where
  total : Option Nat
deriving DecidableEq, Repr

structure PageResp (α : Type) where
  data : Option (List α)
  pagination : Option Pagination
deriving DecidableEq, Repr

/-- `response.get('pagination', {}).get('total', 0)`. -/
def totalOf {α : Type} (r : PageResp α) : Nat :=
  (r.pagination.bind Pagination.total).getD 0

def paginateLoop {α : Type} (fetch : Nat → PageResp α) (limit : Nat) :
    Nat → Nat → List α → Option (List α × Nat)
  | 0, _, _ => none
  | fuel + 1, offset, acc =>
    let r := fetch offset
    match r.data with
    | some d =>
      if d.isEmpty then some (acc, 1)
      else
        let newAcc := acc ++ d
        let newOffset := offset + limit
        if d.length < limit ∨ totalOf r ≤ newOffset then some (newAcc, 1)
        else
          match paginateLoop fetch limit fuel newOffset newAcc with
          | some (res, n) => some (res, n + 1)
          | none => none
    | none => some (acc, 1)

/-- `paginate` with the given page limit, starting at offset 0 with an empty
accumulator.  `fuel` bounds the number of loop iterations; `none` means the
fuel ran out before the loop's own break conditions fired. -/
def paginate {α : Type} (fetch : Nat → PageResp α) (limit fuel : Nat) :
    Option (List α × Nat) :=
  paginateLoop fetch limit fuel 0 []

/-- A server in the documented shape: it slices a fixed collection and always
reports the true total, so page `offset` carries
`coll[offset : offset + limit]` and `pagination.total = len(coll)`. -/
def sliceServer {α : Type} (coll : List α) (limit offset : Nat) : PageResp α :=
  { data := some ((coll.drop offset).take limit),
    pagination := some ⟨some coll.length⟩ }

/-! ## HMAC-SHA256 and webhook signature validation

`validate_webhook_signature` (source lines 432-451) computes
`hmac.new(secret.encode('utf-8'), payload, hashlib.sha256).hexdigest()` and
compares it with `signature` via `hmac.compare_digest`.  The definitions below
translate the semantics of those standard-library calls: SHA-256 exactly as in
FIPS 180-4 (the algorithm `hashlib.sha256` implements), HMAC as in RFC 2104
with the 64-byte block size of SHA-256, byte strings as `List Nat` of values
below 256, and 32-bit words as `Nat` reduced modulo `2 ^ 32`. -/

def w32 (n : Nat) : Nat := n % 4294967296

def rotr32 (k x : Nat) : Nat := w32 ((x >>> k) ||| (x <<< (32 - k)))

def bigS0 (x : Nat) : Nat := rotr32 2 x ^^^ rotr32 13 x ^^^ rotr32 22 x

def bigS1 (x : Nat) : Nat := rotr32 6 x ^^^ rotr32 11 x ^^^ rotr32 25 x

def smallS0 (x : Nat) : Nat := rotr32 7 x ^^^ rotr32 18 x ^^^ (x >>> 3)

def smallS1 (x : Nat) : Nat := rotr32 17 x ^^^ rotr32 19 x ^^^ (x >>> 10)

def chf (x y z : Nat) : Nat := (x &&& y) ^^^ ((x ^^^ 4294967295) &&& z)

def majf (x y z : Nat) : Nat := (x &&& y) ^^^ (x &&& z) ^^^ (y &&& z)

def sha256K : Array Nat :=
  #[
    1116352408, 1899447441, 3049323471, 3921009573, 961987163,
    1508970993, 2453635748, 2870763221, 3624381080, 310598401,
    607225278, 1426881987, 1925078388, 2162078206, 2614888103,
    3248222580, 3835390401, 4022224774, 264347078, 604807628,
    770255983, 1249150122, 1555081692, 1996064986, 2554220882,
    2821834349, 2952996808, 3210313671, 3336571891, 3584528711,
    113926993, 338241895, 666307205, 773529912, 1294757372,
    1396182291, 1695183700, 1986661051, 2177026350, 2456956037,
    2730485921, 2820302411, 3259730800, 3345764771, 3516065817,
    3600352804, 4094571909, 275423344, 430227734, 506948616,
    659060556, 883997877, 958139571, 1322822218, 1537002063,
    1747873779, 1955562222, 2024104815, 2227730452, 2361852424,
    2428436474, 2756734187, 3204031479, 3329325298]

def sha256H0 : List Nat :=
  [
    1779033703, 3144134277, 1013904242, 2773480762, 1359893119,
    2600822924, 528734635, 1541459225]

/-- Big-endian byte serialisation of `n` on `k` bytes. -/
def toBytesBE (k n : Nat) : List Nat :=
  (List.range k).map (fun i => (n >>> (8 * (k - 1 - i))) % 256)

/-- FIPS 180-4 padding: append `0x80`, zero bytes up to 56 mod 64, and the
message bit length on 8 big-endian bytes. -/
def sha256Pad (msg : List Nat) : List Nat :=
  let z := (64 - ((msg.length + 9) % 64)) % 64
  msg ++ [0x80] ++ List.replicate z 0 ++ toBytesBE 8 (msg.length * 8)

def bytesToWords : List Nat → List Nat
  | a :: b :: c :: d :: rest =>
    ((a <<< 24) ||| (b <<< 16) ||| (c <<< 8) ||| d) :: bytesToWords rest
  | _ => []

def toBlocks : List Nat → List (List Nat)
  | [] => []
  | w :: ws => (w :: ws).take 16 :: toBlocks ((w :: ws).drop 16)
termination_by l => l.length
decreasing_by simp [List.length_drop]; omega

/-- Message schedule: extend the 16 block words to 64. -/
def sha256Schedule (block : List Nat) : Array Nat :=
  (List.range 48).foldl
    (fun w _ =>
      let t := w.size
      w.push (w32 (smallS1 (w.getD (t - 2) 0) + w.getD (t - 7) 0 +
        smallS0 (w.getD (t - 15) 0) + w.getD (t - 16) 0)))
    (Array.mk block)

/-- One SHA-256 compression round over the working variables. -/
def sha256Round (w : Array Nat) (st : Nat × Nat × Nat × Nat × Nat × Nat × Nat × Nat)
    (t : Nat) : Nat × Nat × Nat × Nat × Nat × Nat × Nat × Nat :=
  match st with
  | (a, b, c, d, e, f, g, h) =>
    let t1 := w32 (h + bigS1 e + chf e f g + sha256K.getD t 0 + w.getD t 0)
    let t2 := w32 (bigS0 a + majf a b c)
    (w32 (t1 + t2), a, b, c, w32 (d + t1), e, f, g)

def sha256Compress (hs : List Nat) (block : List Nat) : List Nat :=
  let w := sha256Schedule block
  let init := (hs.getD 0 0, hs.getD 1 0, hs.getD 2 0, hs.getD 3 0,
               hs.getD 4 0, hs.getD 5 0, hs.getD 6 0, hs.getD 7 0)
  match (List.range 64).foldl (sha256Round w) init with
  | (a, b, c, d, e, f, g, h) =>
    [w32 (hs.getD 0 0 + a), w32 (hs.getD 1 0 + b), w32 (hs.getD 2 0 + c),
     w32 (hs.getD 3 0 + d), w32 (hs.getD 4 0 + e), w32 (hs.getD 5 0 + f),
     w32 (hs.getD 6 0 + g), w32 (hs.getD 7 0 + h)]

def sha256Blocks (hs : List Nat) : List (List Nat) → List Nat
  | [] => hs
  | b :: bs => sha256Blocks (sha256Compress hs b) bs

/-- SHA-256 digest (32 bytes) of a byte string. -/
def sha256 (msg : List Nat) : List Nat :=
  ((sha256Blocks sha256H0 (toBlocks (bytesToWords (sha256Pad msg)))).map
    (toBytesBE 4)).flatten

/-- HMAC-SHA256 (RFC 2104): key hashed if longer than the 64-byte block,
zero-padded to the block size, inner pad `0x36`, outer pad `0x5c`. -/
def hmacSha256 (key msg : List Nat) : List Nat :=
  let k0 := if 64 < key.length then sha256 key else key
  let kp := k0 ++ List.replicate (64 - k0.length) 0
  let ipadded := kp.map (fun b => b ^^^ 0x36)
  let opadded := kp.map (fun b => b ^^^ 0x5c)
  sha256 (opadded ++ sha256 (ipadded ++ msg))

def hexDigitChar (d : Nat) : Char :=
  Char.ofNat (if d < 10 then 48 + d else 87 + d)

/-- Lowercase hexadecimal rendering of a byte string (Python `hexdigest`). -/
def toHex (bytes : List Nat) : String :=
  String.join (bytes.map (fun b => String.mk [hexDigitChar (b / 16), hexDigitChar (b % 16)]))

/-- UTF-8 encoding of one code point (Python `str.encode` of `'utf-8'`). -/
def utf8Char (c : Char) : List Nat :=
  let n := c.toNat
  if n < 0x80 then [n]
  else if n < 0x800 then
    [0xc0 ||| (n >>> 6), 0x80 ||| (n &&& 63)]
  else if n < 0x10000 then
    [0xe0 ||| (n >>> 12), 0x80 ||| ((n >>> 6) &&& 63), 0x80 ||| (n &&& 63)]
  else
    [0xf0 ||| (n >>> 18), 0x80 ||| ((n >>> 12) &&& 63),
     0x80 ||| ((n >>> 6) &&& 63), 0x80 ||| (n &&& 63)]

def utf8Encode (s : String) : List Nat :=
  (s.data.map utf8Char).flatten

/-- `hmac.compare_digest` on two hexadecimal digest strings: its return value
is equality of the strings (the constant-time execution profile has no
observable counterpart in a functional model). -/
def compare_digest (a b : String) : Bool := a == b

/-- `QAPlatformAPI.validate_webhook_signature` (source lines 432-451). -/
def validate_webhook_signature (payload : List Nat) (signature secret : String) :
    Bool :=
  compare_digest signature (toHex (hmacSha256 (utf8Encode secret) payload))


/-! ## Helper lemmas -/

/-- Unfolding `paginateLoop` one iteration when the fetched page has a
nonempty `data` array and a break condition holds: the page is appended and
the loop stops after this single fetch. -/
theorem paginateLoop_step_stop {α : Type} (fetch : Nat → PageResp α)
    (limit fuel offset : Nat) (acc d : List α)
    (hd : (fetch offset).data = some d) (hne : d ≠ [])
    (hstop : d.length < limit ∨ totalOf (fetch offset) ≤ offset + limit) :
    paginateLoop fetch limit (fuel + 1) offset acc = some (acc ++ d, 1) := by
  have hemp : d.isEmpty = false := by
    cases d with
    | nil => exact absurd rfl hne
    | cons x xs => rfl
  simp only [paginateLoop, hd, hemp, Bool.false_eq_true, if_false]
  rw [if_pos hstop]

/-- Unfolding `paginateLoop` one iteration when the fetched page has a
nonempty `data` array and no break condition holds: the page is appended, the
offset advances by `limit`, and the loop continues with one fetch counted. -/
theorem paginateLoop_step_continue {α : Type} (fetch : Nat → PageResp α)
    (limit fuel offset : Nat) (acc d : List α)
    (hd : (fetch offset).data = some d) (hne : d ≠ [])
    (hcont : ¬ (d.length < limit ∨ totalOf (fetch offset) ≤ offset + limit)) :
    paginateLoop fetch limit (fuel + 1) offset acc =
      match paginateLoop fetch limit fuel (offset + limit) (acc ++ d) with
      | some (res, n) => some (res, n + 1)
      | none => none := by
  have hemp : d.isEmpty = false := by
    cases d with
    | nil => exact absurd rfl hne
    | cons x xs => rfl
  simp only [paginateLoop, hd, hemp, Bool.false_eq_true, if_false]
  rw [if_neg hcont]

/-- The accumulated-result invariant of `paginate` against a conforming slice
server: starting at offset `o` inside the collection with enough fuel, the
loop returns the accumulator followed by every remaining item, in
`⌈(|coll| - o) / L⌉` further page fetches. -/
theorem paginateLoop_slice {α : Type} (coll : List α) (L : Nat) (hL : 0 < L) :
    ∀ (fuel o : Nat) (acc : List α), o < coll.length →
      coll.length ≤ o + L * fuel →
      paginateLoop (sliceServer coll L) L fuel o acc =
        some (acc ++ coll.drop o, (coll.length - o + L - 1) / L) := by
  intro fuel
  induction fuel with
  | zero => intro o acc ho hle; omega
  | succ fuel ih =>
    intro o acc ho hle
    have hd : (sliceServer coll L o).data = some ((coll.drop o).take L) := rfl
    have hdlen : ((coll.drop o).take L).length = min L (coll.length - o) := by
      simp [List.length_take, List.length_drop]
    have hne : (coll.drop o).take L ≠ [] := by
      intro h
      have := congrArg List.length h
      rw [hdlen] at this
      simp at this
      omega
    have htot : totalOf (sliceServer coll L o) = coll.length := rfl
    by_cases hend : coll.length ≤ o + L
    · rw [paginateLoop_step_stop (sliceServer coll L) L fuel o acc _ hd hne
        (Or.inr (htot ▸ hend))]
      have htake : (coll.drop o).take L = coll.drop o := by
        apply List.take_of_length_le
        simp [List.length_drop]
        omega
      have hcount : (coll.length - o + L - 1) / L = 1 := by
        apply Nat.div_eq_of_lt_le <;> omega
      rw [htake, hcount]
    · have hcont : ¬ (((coll.drop o).take L).length < L ∨
          totalOf (sliceServer coll L o) ≤ o + L) := by
        rw [hdlen, htot]
        omega
      rw [paginateLoop_step_continue (sliceServer coll L) L fuel o acc _ hd hne hcont]
      rw [ih (o + L) (acc ++ (coll.drop o).take L) (by omega) (by
        rw [Nat.mul_succ] at hle; omega)]
      have hjoin : (acc ++ (coll.drop o).take L) ++ coll.drop (o + L) =
          acc ++ coll.drop o := by
        rw [List.append_assoc]
        congr 1
        calc (coll.drop o).take L ++ coll.drop (o + L)
            = (coll.drop o).take L ++ (coll.drop o).drop L := by rw [List.drop_drop]
          _ = coll.drop o := List.take_append_drop L (coll.drop o)
      have hcount : (coll.length - (o + L) + L - 1) / L + 1 =
          (coll.length - o + L - 1) / L := by
        rw [show coll.length - (o + L) + L - 1 = coll.length - o - 1 from by omega,
            show coll.length - o + L - 1 = (coll.length - o - 1) + L from by omega,
            Nat.add_div_right _ hL]
      rw [hjoin]
      show some (acc ++ coll.drop o, (coll.length - (o + L) + L - 1) / L + 1) = _
      rw [hcount]

/-! ## Claim theorems -/

/-- C1.  Evaluation at the failing input: with `retry_attempts = 2` and
`retry_delay = 1`, a server that returns HTTP 500 with a parsable error body
on every attempt makes `request` sleep `D` and `2D` (here 1 and 2 seconds) and
then raise the generic `QAPlatformError("Max retries exceeded")`
(RetriesExhausted) — not `RequestFailed` with the server's status and parsed
body as the claim states.  The `attempt <= self.retry_attempts` guard is true
on every iteration of `for attempt in range(1, self.retry_attempts + 1)`, so
the documented fallthrough of an exhausted 5xx to generic error handling is
unreachable. -/
theorem request_always_500_exhausts_to_max_retries :
    request 2 1 (fun _ =>
      { status_code := 500, retryAfter := none,
        body := some ⟨some ⟨some "boom", none, none⟩⟩, text := "" }) =
      ([1, 2], ReqOutcome.qaError "Max retries exceeded" none none []) := by
  show requestLoop 2 1 _ (List.range' 1 2) [] = _
  norm_num [List.range', requestLoop, respOk]

/-- C2.  Evaluation at the failing input: with `retry_attempts = 0` the loop
`for attempt in range(1, 1)` never runs, so a server answering HTTP 429 with
`retry-after: 5` is never even contacted; `request` performs zero sleeps and
raises `QAPlatformError("Max retries exceeded")` — not `RateLimitError(5)` as
the claim states.  The `raise RateLimitError(...)` branch is dead code because
`attempt <= self.retry_attempts` always holds inside the loop. -/
theorem request_429_with_zero_retry_attempts :
    request 0 1 (fun _ =>
      { status_code := 429, retryAfter := some "5", body := none, text := "" }) =
      ([], ReqOutcome.qaError "Max retries exceeded" none none []) := by
  decide

/-- C3.  `validate_webhook_signature` returns `true` exactly when the
signature string equals the lowercase hex HMAC-SHA256 digest of the payload
keyed by the UTF-8 encoding of the secret; in particular the correct
signature always verifies, and any differing signature string (for example
one with a flipped byte) is rejected. -/
theorem validate_webhook_signature_iff_hmac_hex (payload : List Nat)
    (signature secret : String) :
    (validate_webhook_signature payload signature secret = true ↔
      signature = toHex (hmacSha256 (utf8Encode secret) payload)) ∧
    validate_webhook_signature payload
      (toHex (hmacSha256 (utf8Encode secret) payload)) secret = true := by
  constructor
  · simp [validate_webhook_signature, compare_digest]
  · simp [validate_webhook_signature, compare_digest]

/-- C4.  Against a conforming server that slices a fixed collection and
reports the true total, `paginate` returns every item of the collection in
order and performs exactly `max 1 ⌈|coll| / L⌉` page fetches, stopping on the
first page for which the short-page or total-reached condition fires. -/
theorem paginate_slice_server_collects_all {α : Type} (coll : List α)
    (L : Nat) (hL : 0 < L) :
    paginate (sliceServer coll L) L (coll.length + 1) =
      some (coll, max 1 ((coll.length + L - 1) / L)) := by
  cases hc : coll with
  | nil =>
    subst hc
    have h0 : (0 + L - 1) / L = 0 := Nat.div_eq_of_lt (by omega)
    simp only [List.length_nil, h0]
    simp [paginate, paginateLoop, sliceServer]
  | cons x xs =>
    rw [← hc]
    have ho : 0 < coll.length := by rw [hc]; simp
    have hfuel : coll.length ≤ 0 + L * (coll.length + 1) := by
      have := Nat.le_mul_of_pos_left (coll.length + 1) hL
      omega
    rw [paginate, paginateLoop_slice coll L hL (coll.length + 1) 0 [] ho hfuel]
    have hmax : max 1 ((coll.length + L - 1) / L) = (coll.length + L - 1) / L := by
      have : 1 ≤ (coll.length + L - 1) / L := by
        rw [Nat.le_div_iff_mul_le hL]
        omega
      omega
    simp [hmax]

/-- C4 witness: a 45-item collection with limit 20 is returned whole in
exactly 3 page fetches (20, 20 and a short 5). -/
theorem paginate_45_limit_20_three_fetches :
    0 < 20 ∧
    paginate (sliceServer (List.range 45) 20) 20 46 = some (List.range 45, 3) := by
  refine ⟨by decide, ?_⟩
  have h := paginate_slice_server_collects_all (List.range 45) 20 (by decide)
  simpa using h

/-- C5.  After a login whose response contains a token, the client state holds
the new bearer token, the API key is cleared, and the session headers — sent
on every subsequent request — contain `Authorization: Bearer <token>` and no
`X-API-Key` header, whatever credential was set before. -/
theorem login_replaces_credentials (c : Client) (response : LoginResp)
    (t : String) (h : response.token = some t) :
    (login c response).jwt_token = some t ∧
    (login c response).api_key = none ∧
    ("Authorization", "Bearer " ++ t) ∈ (login c response).headers ∧
    "X-API-Key" ∉ ((login c response).headers.map Prod.fst) := by
  simp [login, h, update_auth_headers, baseHeaders]

/-- C5 witness: a client constructed with an API key, after a login returning
token `"tok"`, presents the bearer header and no API-key header. -/
theorem login_replaces_credentials_witness :
    (login (update_auth_headers
      { api_key := some "k0", jwt_token := none, headers := [] })
      { token := some "tok" }).jwt_token = some "tok" ∧
    (login (update_auth_headers
      { api_key := some "k0", jwt_token := none, headers := [] })
      { token := some "tok" }).api_key = none ∧
    ("Authorization", "Bearer " ++ "tok") ∈
      (login (update_auth_headers
        { api_key := some "k0", jwt_token := none, headers := [] })
        { token := some "tok" }).headers ∧
    "X-API-Key" ∉ ((login (update_auth_headers
      { api_key := some "k0", jwt_token := none, headers := [] })
      { token := some "tok" }).headers.map Prod.fst) :=
  login_replaces_credentials _ _ "tok" rfl

/-- C6.  Whenever a loop iteration of `request` receives an HTTP 401
response, it raises `AuthenticationError` at once — no sleep, no further
attempt, whatever `retry_attempts` is — with the message taken from the
body's `error.message` and defaulting to `"Authentication failed"` when the
body is unparsable (or carries no such field). -/
theorem request_401_immediate_auth_error (N : Nat) (D : ℚ)
    (resp : Nat → HttpResp) (attempt : Nat) (rest : List Nat) (sleeps : List ℚ)
    (h401 : (resp attempt).status_code = 401) :
    requestLoop N D resp (attempt :: rest) sleeps =
      (sleeps, ReqOutcome.authError
        ((((resp attempt).body.bind JsonBody.error).bind ErrorInfo.message).getD
          "Authentication failed")) := by
  have hmsg : authMessage (resp attempt).body =
      (((resp attempt).body.bind JsonBody.error).bind ErrorInfo.message).getD
        "Authentication failed" := by
    cases hb : (resp attempt).body with
    | none => simp [authMessage]
    | some j =>
      cases he : j.error with
      | none => simp [authMessage, he]
      | some e => simp [authMessage, he]
  simp [requestLoop, h401, hmsg]

/-- C6 witness: with three attempts configured, a 401 with an unparsable body
on the first attempt fails immediately with the default message and no
sleeps. -/
theorem request_401_immediate_auth_error_witness :
    requestLoop 3 1
      (fun _ => { status_code := 401, retryAfter := none, body := none, text := "" })
      [1, 2, 3] [] = ([], ReqOutcome.authError "Authentication failed") := by
  have h := request_401_immediate_auth_error 3 1
    (fun _ => { status_code := 401, retryAfter := none, body := none, text := "" })
    1 [2, 3] [] rfl
  simpa using h

/-- C7 counterexample: an HTTP 429 response whose `retry-after` header is the
unparsable string `"abc"` does not fall back to the default of 60 seconds —
`int("abc")` raises `ValueError`, which no handler in `request` catches, so
the call fails with an unclassified error. -/
theorem retry_after_unparsable_is_uncaught :
    retryAfterOf
      { status_code := 429, retryAfter := some "abc", body := none, text := "" }
      ≠ some 60 ∧
    request 1 1 (fun _ =>
      { status_code := 429, retryAfter := some "abc", body := none, text := "" }) =
      ([], ReqOutcome.uncaughtValueError) := by
  constructor
  · decide
  · decide

/-- C7 amended: the 60-second default applies exactly when the `retry-after`
header is absent — a 429 iteration with a missing header and attempts left
sleeps 60 seconds and retries; a present but non-integer header value instead
raises an uncaught `ValueError`. -/
theorem retry_after_missing_defaults_sixty (N : Nat) (D : ℚ)
    (resp : Nat → HttpResp) (attempt : Nat) (rest : List Nat) (sleeps : List ℚ)
    (h429 : (resp attempt).status_code = 429)
    (hmiss : (resp attempt).retryAfter = none)
    (hatt : attempt ≤ N) :
    requestLoop N D resp (attempt :: rest) sleeps =
      requestLoop N D resp rest (sleeps ++ [(60 : ℚ)]) := by
  simp [requestLoop, h429, retryAfterOf, hmiss, hatt]

/-- C7 amended witness: a 429 with no `retry-after` header on the single
configured attempt sleeps exactly 60 seconds. -/
theorem retry_after_missing_defaults_sixty_witness :
    requestLoop 1 1
      (fun _ => { status_code := 429, retryAfter := none, body := none, text := "" })
      [1] [] =
    requestLoop 1 1
      (fun _ => { status_code := 429, retryAfter := none, body := none, text := "" })
      [] [(60 : ℚ)] := by
  have h := retry_after_missing_defaults_sixty 1 1
    (fun _ => { status_code := 429, retryAfter := none, body := none, text := "" })
    1 [] [] rfl rfl (by decide)
  simpa using h

/-- C8 counterexample: a query entry whose value is the empty string is NOT
dropped — `get_files` only strips `None` values, and the transport encodes
the surviving empty-string entry into the query string. -/
theorem empty_string_param_not_dropped :
    clean_filters [("status", some "")] = [("status", some "")] ∧
    wireParams (clean_filters [("status", some "")]) = [("status", "")] := by
  constructor
  · decide
  · decide

/-- C8 amended: entries with absent (`None`) values — and only those — are
dropped before encoding: the pairs appearing in the encoded query string are
exactly the entries with a present value, in order, empty strings included. -/
theorem wire_params_drop_exactly_none (ps : List (String × Option String)) :
    wireParams (clean_filters ps) =
      ps.filterMap (fun kv => kv.2.map (fun v => (kv.1, v))) := by
  induction ps with
  | nil => rfl
  | cons kv rest ih =>
    cases h : kv.2 with
    | none =>
      simpa [clean_filters, wireParams, List.filter_cons, List.filterMap_cons, h]
        using ih
    | some v =>
      simpa [clean_filters, wireParams, List.filter_cons, List.filterMap_cons, h]
        using ih

/-- C10.  When a fetched page has a nonempty `data` array but no
`pagination.total` (missing `pagination` object or missing `total` field),
the total defaults to 0, which is at most the advanced offset, so `paginate`
appends that page and stops — even when the page holds exactly `limit` items
and more pages exist. -/
theorem paginate_missing_total_stops_after_one_page {α : Type}
    (fetch : Nat → PageResp α) (limit fuel offset : Nat) (acc d : List α)
    (hd : (fetch offset).data = some d) (hne : d ≠ [])
    (hnt : (fetch offset).pagination.bind Pagination.total = none) :
    totalOf (fetch offset) = 0 ∧
    paginateLoop fetch limit (fuel + 1) offset acc = some (acc ++ d, 1) := by
  have ht : totalOf (fetch offset) = 0 := by simp [totalOf, hnt]
  refine ⟨ht, paginateLoop_step_stop fetch limit fuel offset acc d hd hne ?_⟩
  rw [ht]
  exact Or.inr (Nat.zero_le _)

/-- C10 witness: a full page of `limit = 2` items with `pagination` present
but `total` missing is appended and pagination stops after that single
fetch. -/
theorem paginate_missing_total_stops_after_one_page_witness :
    totalOf ((fun _ => ({ data := some [7, 8], pagination := some ⟨none⟩ } :
      PageResp Nat)) 0) = 0 ∧
    paginateLoop
      (fun _ => ({ data := some [7, 8], pagination := some ⟨none⟩ } : PageResp Nat))
      2 3 0 [] = some ([7, 8], 1) := by
  have h := paginate_missing_total_stops_after_one_page
    (fun _ => ({ data := some [7, 8], pagination := some ⟨none⟩ } : PageResp Nat))
    2 2 0 [] [7, 8] rfl (by decide) rfl
  simpa using h
